import Mathlib

/-!
Shallow embedding of the rock-paper-scissors commit-reveal server
(`src/game.rs`, `src/main.rs`).  Pure Rust functions become Lean functions;
the shared session registry (`SESSIONS`, an `RwLock<HashMap<String, Session>>`)
becomes an explicit map value threaded through the request handlers, which the
global write lock serializes.  Randomness (`Hand::random`, `gen_random_bytes`)
is passed in as explicit parameters: a handler is a function of the random
draws it makes.
-/

namespace RPS

/-! ## Hand (`game.rs`) -/

/-- `enum Hand { Rock, Paper, Scissors }` from `game.rs`. -/
inductive Hand
  | Rock
  | Paper
  | Scissors
deriving DecidableEq, Repr, Fintype

/-- `Hand::vs` (`game.rs` lines 17-30): `Ordering` from `self`'s perspective;
equality first, then the three hard-coded losing pairs, `Greater` otherwise. -/
def Hand.vs (a rhs : Hand) : Ordering :=
  if a = rhs then Ordering.eq
  else
    match a, rhs with
    | Hand.Rock, Hand.Paper => Ordering.lt
    | Hand.Paper, Hand.Scissors => Ordering.lt
    | Hand.Scissors, Hand.Rock => Ordering.lt
    | _, _ => Ordering.gt

/-- `Hand::as_icon` (`game.rs` lines 32-38). -/
def Hand.as_icon : Hand → String
  | Hand.Rock => "✊🏼"
  | Hand.Paper => "✋🏼"
  | Hand.Scissors => "✌🏼"

/-- `impl AsRef<str> for Hand` (`game.rs` lines 48-56): the canonical token. -/
def Hand.as_ref : Hand → String
  | Hand.Rock => "rock"
  | Hand.Paper => "paper"
  | Hand.Scissors => "scissors"

/-- `struct ParseHandError` (`game.rs` line 58). -/
inductive ParseHandError
  | mk
deriving DecidableEq, Repr

/-- One character of Rust's `str::to_lowercase`, restricted to ASCII
(`A`-`Z` shifts to `a`-`z`, everything else unchanged); this matches Rust
exactly on ASCII strings, which is the range the accepted tokens live in. -/
def asciiLower (c : Char) : Char :=
  if 'A' ≤ c ∧ c ≤ 'Z' then Char.ofNat (c.toNat + 32) else c

/-- Rust's `s.to_lowercase()` as called in `Hand::from_str`, on the ASCII
fragment (see `asciiLower`). -/
def to_lowercase (s : String) : String :=
  ⟨s.data.map asciiLower⟩

/-- `impl FromStr for Hand` (`game.rs` lines 60-71): lowercase the input and
match it exactly against the three tokens, every other string is an error. -/
def Hand.from_str (s : String) : Except ParseHandError Hand :=
  if to_lowercase s = "rock" then Except.ok Hand.Rock
  else if to_lowercase s = "paper" then Except.ok Hand.Paper
  else if to_lowercase s = "scissors" then Except.ok Hand.Scissors
  else Except.error ParseHandError.mk

/-! ## Hex encoding (`util.rs`, not part of the staged sources) -/

/-- One lowercase hex digit for a value below 16 (`48 = '0'`, `87 + 10 = 'a'`). -/
def hexDigitChar (n : Nat) : Char :=
  if n < 10 then Char.ofNat (48 + n) else Char.ofNat (87 + n)

/-- The two lowercase hex digits of one byte. -/
def byteToHex (b : Nat) : List Char :=
  [hexDigitChar (b / 16), hexDigitChar (b % 16)]

/-- Modelled from the spec: `util::bytes_to_hex` lives in `src/util.rs`, which
is not among the staged sources; the spec fixes it as the lowercase hex
encoding of a byte string ("encoded as lowercase hex for display",
`hex(nonce)`). -/
def bytes_to_hex (bs : List Nat) : String :=
  ⟨(bs.map byteToHex).flatten⟩

/-- Decidable "is a lowercase hex digit" predicate on characters. -/
def isLowerHexDigit (c : Char) : Bool :=
  ('0' ≤ c && c ≤ '9') || ('a' ≤ c && c ≤ 'f')

/-! ## SHA-256 (the `sha2` crate's `Sha256::digest`, per FIPS 180-4)

The commitment hash is computed by the external `sha2` crate; it is embedded
here as the standard SHA-256 algorithm over byte lists, with 32-bit words as
`Nat` reduced mod `2^32`. -/

/-- Addition mod `2^32`. -/
def add32 (a b : Nat) : Nat :=
  (a + b) % 4294967296

/-- Right rotation of a 32-bit word by `n` places. -/
def rotr32 (x n : Nat) : Nat :=
  (x >>> n) ||| ((x <<< (32 - n)) % 4294967296)

/-- SHA-256 `Ch(x,y,z) = (x AND y) XOR (NOT x AND z)` on 32-bit words. -/
def shaCh (x y z : Nat) : Nat :=
  (x &&& y) ^^^ ((x ^^^ 4294967295) &&& z)

/-- SHA-256 `Maj(x,y,z)`. -/
def shaMaj (x y z : Nat) : Nat :=
  (x &&& y) ^^^ (x &&& z) ^^^ (y &&& z)

/-- SHA-256 big sigma 0. -/
def bsig0 (x : Nat) : Nat :=
  rotr32 x 2 ^^^ rotr32 x 13 ^^^ rotr32 x 22

/-- SHA-256 big sigma 1. -/
def bsig1 (x : Nat) : Nat :=
  rotr32 x 6 ^^^ rotr32 x 11 ^^^ rotr32 x 25

/-- SHA-256 small sigma 0. -/
def ssig0 (x : Nat) : Nat :=
  rotr32 x 7 ^^^ rotr32 x 18 ^^^ (x >>> 3)

/-- SHA-256 small sigma 1. -/
def ssig1 (x : Nat) : Nat :=
  rotr32 x 17 ^^^ rotr32 x 19 ^^^ (x >>> 10)

/-- The 64 SHA-256 round constants (FIPS 180-4 §4.2.2, written in decimal:
the first is 0x428a2f98, the last 0xc67178f2). -/
def shaK : List Nat :=
  [1116352408, 1899447441, 3049323471, 3921009573, 961987163,
   1508970993, 2453635748, 2870763221, 3624381080, 310598401,
   607225278, 1426881987, 1925078388, 2162078206, 2614888103,
   3248222580, 3835390401, 4022224774, 264347078, 604807628,
   770255983, 1249150122, 1555081692, 1996064986, 2554220882,
   2821834349, 2952996808, 3210313671, 3336571891, 3584528711,
   113926993, 338241895, 666307205, 773529912, 1294757372,
   1396182291, 1695183700, 1986661051, 2177026350, 2456956037,
   2730485921, 2820302411, 3259730800, 3345764771, 3516065817,
   3600352804, 4094571909, 275423344, 430227734, 506948616,
   659060556, 883997877, 958139571, 1322822218, 1537002063,
   1747873779, 1955562222, 2024104815, 2227730452, 2361852424,
   2428436474, 2756734187, 3204031479, 3329325298]

/-- The SHA-256 working state: eight 32-bit words. -/
structure Hash8 where
  a : Nat
  b : Nat
  c : Nat
  d : Nat
  e : Nat
  f : Nat
  g : Nat
  h : Nat

/-- The SHA-256 initial hash value (FIPS 180-4 §5.3.3, in decimal: the first
word is 0x6a09e667, the last 0x5be0cd19). -/
def initH : Hash8 :=
  ⟨1779033703, 3144134277, 1013904242, 2773480762,
   1359893119, 2600822924, 528734635, 1541459225⟩

/-- The first 16 words of the message schedule: the chunk's 64 bytes read as
big-endian 32-bit words. -/
def wordsOfChunk (chunk : List Nat) : Array Nat :=
  let arr := chunk.toArray
  (Array.range 16).map fun i =>
    (arr.getD (4 * i) 0) <<< 24 ||| (arr.getD (4 * i + 1) 0) <<< 16 |||
      (arr.getD (4 * i + 2) 0) <<< 8 ||| arr.getD (4 * i + 3) 0

/-- Extend the message schedule from 16 to 64 words. -/
def extendSchedule (ws : Array Nat) : Array Nat :=
  (List.range 48).foldl
    (fun ws _ =>
      let j := ws.size
      ws.push (add32 (add32 (ssig1 (ws.getD (j - 2) 0)) (ws.getD (j - 7) 0))
        (add32 (ssig0 (ws.getD (j - 15) 0)) (ws.getD (j - 16) 0))))
    ws

/-- One SHA-256 compression round with round constant `k` and schedule word `w`. -/
def shaRound (st : Hash8) (k w : Nat) : Hash8 :=
  let t1 := add32 st.h (add32 (bsig1 st.e) (add32 (shaCh st.e st.f st.g) (add32 k w)))
  let t2 := add32 (bsig0 st.a) (shaMaj st.a st.b st.c)
  ⟨add32 t1 t2, st.a, st.b, st.c, add32 st.d t1, st.e, st.f, st.g⟩

/-- Process one padded 64-byte chunk: 64 compression rounds, then add the
result into the incoming hash value, word by word mod `2^32`. -/
def processChunk (h0 : Hash8) (chunk : List Nat) : Hash8 :=
  let ws := extendSchedule (wordsOfChunk chunk)
  let st := (List.range 64).foldl
    (fun st i => shaRound st (shaK.getD i 0) (ws.getD i 0)) h0
  ⟨add32 h0.a st.a, add32 h0.b st.b, add32 h0.c st.c, add32 h0.d st.d,
   add32 h0.e st.e, add32 h0.f st.f, add32 h0.g st.g, add32 h0.h st.h⟩

/-- The 8 bytes of a 64-bit length field, big-endian. -/
def be64 (n : Nat) : List Nat :=
  [(n >>> 56) % 256, (n >>> 48) % 256, (n >>> 40) % 256, (n >>> 32) % 256,
   (n >>> 24) % 256, (n >>> 16) % 256, (n >>> 8) % 256, n % 256]

/-- SHA-256 padding: `0x80`, zero bytes to 56 mod 64, then the bit length. -/
def padMessage (msg : List Nat) : List Nat :=
  let len := msg.length
  let zeros := (119 - len % 64) % 64
  msg ++ 128 :: List.replicate zeros 0 ++ be64 (len * 8)

/-- Split a byte list into 64-byte chunks. -/
def chunks64 : List Nat → List (List Nat)
  | [] => []
  | x :: rest => ((x :: rest).take 64) :: chunks64 ((x :: rest).drop 64)
termination_by l => l.length
decreasing_by simp [List.length_drop]; omega

/-- The 4 bytes of one hash word, big-endian. -/
def wordBE (w : Nat) : List Nat :=
  [(w >>> 24) % 256, (w >>> 16) % 256, (w >>> 8) % 256, w % 256]

/-- The 32 output bytes of a final hash state. -/
def bytesOfHash (st : Hash8) : List Nat :=
  wordBE st.a ++ wordBE st.b ++ wordBE st.c ++ wordBE st.d ++
    wordBE st.e ++ wordBE st.f ++ wordBE st.g ++ wordBE st.h

/-- SHA-256 of a byte list: 32 digest bytes. -/
def sha256 (msg : List Nat) : List Nat :=
  bytesOfHash ((chunks64 (padMessage msg)).foldl processChunk initH)

/-- The bytes of a string as Rust's `str::as_bytes` yields them, on the ASCII
fragment (every commitment input is hex digits plus a hand token, all ASCII,
where UTF-8 bytes and code points coincide). -/
def strBytes (s : String) : List Nat :=
  s.data.map Char.toNat

/-- `format!("{:x}", Sha256::digest(s.as_bytes()))`: the lowercase hex digest
of a string. -/
def sha256_hex (s : String) : String :=
  bytes_to_hex (sha256 (strBytes s))

/-! ## Round (`game.rs` lines 73-93) -/

/-- `struct Round` (`game.rs`): the committed hand, the nonce as a lowercase
hex string, and the commitment digest. -/
structure Round where
  computer : Hand
  random_bytes : String
  digest : String
deriving DecidableEq, Repr

/-- `Round::random` (`game.rs` lines 79-93).  The two random draws it makes —
`Hand::random()` and `gen_random_bytes(32)` — are explicit parameters `hand`
and `randomBytes`; the rest is the deterministic part of the source:
hex-encode the nonce, concatenate the hand token, hash, store. -/
def Round.random (hand : Hand) (randomBytes : List Nat) : Round :=
  let random_bytes_hex := bytes_to_hex randomBytes
  let concat_str := random_bytes_hex ++ hand.as_ref
  let digest := sha256_hex concat_str
  { computer := hand, random_bytes := random_bytes_hex, digest := digest }

/-! ## Session and registry (`main.rs`) -/

/-- `struct Session` (`main.rs` lines 35-41). -/
structure Session where
  user_name : String
  win_count : Nat
  tie_count : Nat
  loss_count : Nat
  last_round : Option Round
deriving DecidableEq, Repr

/-- `Session::new` (`main.rs` lines 43-53). -/
def Session.new (user_name : String) : Session :=
  { user_name := user_name
    win_count := 0
    tie_count := 0
    loss_count := 0
    last_round := none }

/-- The `SESSIONS` registry (`main.rs` lines 30-33): `HashMap<String, Session>`
as a map value.  The surrounding `RwLock` serializes the handlers, so each
handler is a function from registry to registry. -/
abbrev Registry := String → Option Session

/-- `HashMap::insert` (also the effect of mutating an entry through
`get_mut`). -/
def Registry.insert (uid : String) (s : Session) (reg : Registry) : Registry :=
  fun k => if k = uid then some s else reg k

/-- `HashMap::remove`, as `logout` (`main.rs` lines 144-158) calls it. -/
def Registry.remove (uid : String) (reg : Registry) : Registry :=
  fun k => if k = uid then none else reg k

/-! ## Request handlers (`main.rs`) -/

/-- `login` (`main.rs` lines 130-142): the freshly drawn 16 random bytes are
the explicit parameter `randBytes`; the handler hex-encodes them into the new
user id, builds a zeroed session, and inserts it.  Returns the new user id
(set into the cookies) together with the updated registry. -/
def login (reg : Registry) (user_name : String) (randBytes : List Nat) :
    String × Registry :=
  let user_id := bytes_to_hex randBytes
  (user_id, Registry.insert user_id (Session.new user_name) reg)

/-- `user_index` (`main.rs` lines 176-190): generate a round (passed in as
`round`, its random draws already made) and store it as the session's
`last_round` through `get_mut`; an unknown user id leaves the registry
untouched. -/
def user_index (reg : Registry) (uid : String) (round : Round) : Registry :=
  match reg uid with
  | some session => Registry.insert uid { session with last_round := some round } reg
  | none => reg

/-- The scoring match of `user_play_index` (`main.rs` lines 208-221): compare
the committed computer hand against the user's hand and bump exactly one
counter, returning the updated session and the result string. -/
def score_session (session : Session) (computer : Hand) (hand : Hand) :
    Session × String :=
  match computer.vs hand with
  | Ordering.gt => ({ session with loss_count := session.loss_count + 1 }, "Computer won")
  | Ordering.eq => ({ session with tie_count := session.tie_count + 1 }, "Tie")
  | Ordering.lt => ({ session with win_count := session.win_count + 1 }, "You won")

/-- The `.expect("last_round should have been initialized in user_index")`
on `main.rs` line 206: a `panic!` that unwinds the request (and poisons the
`SESSIONS` lock). -/
inductive PlayError
  | noPendingRoundPanic
deriving DecidableEq, Repr

/-- The template context `user_play_index` renders on a scored round
(`main.rs` lines 223-236). -/
structure PlayView where
  win_count : String
  tie_count : String
  loss_count : String
  last_human : String
  last_computer : String
  last_result : String
  last_random : String
  last_hand : String
  last_digest : String
  digest : String
deriving DecidableEq, Repr

/-- The context fields of `main.rs` lines 223-236. -/
def make_view (scored : Session) (hand : Hand) (last_round fresh : Round)
    (result : String) : PlayView :=
  { win_count := toString scored.win_count
    tie_count := toString scored.tie_count
    loss_count := toString scored.loss_count
    last_human := hand.as_icon
    last_computer := last_round.computer.as_icon
    last_result := result
    last_random := last_round.random_bytes
    last_hand := last_round.computer.as_ref
    last_digest := last_round.digest
    digest := fresh.digest }

/-- `user_play_index` (`main.rs` lines 197-244): look the session up under the
write lock; with no session, render the reset view (`none`) and change
nothing; with a session but no pending round, the `.expect` panics; otherwise
score the pending round, render the revealed values, and install the fresh
round (its random draws already made) as the new `last_round`. -/
def user_play_index (reg : Registry) (uid : String) (hand : Hand)
    (fresh : Round) : Except PlayError (Registry × Option PlayView) :=
  match reg uid with
  | some session =>
    match session.last_round with
    | none => Except.error PlayError.noPendingRoundPanic
    | some last_round =>
      let scored := score_session session last_round.computer hand
      let view := make_view scored.1 hand last_round fresh scored.2
      let updated := { scored.1 with last_round := some fresh }
      Except.ok (Registry.insert uid updated reg, some view)
  | none => Except.ok (reg, none)

/-! ## Helper lemmas -/

theorem bytes_to_hex_length (bs : List Nat) :
    (bytes_to_hex bs).length = 2 * bs.length := by
  induction bs with
  | nil => rfl
  | cons b t ih =>
    simp only [bytes_to_hex, String.length, List.map_cons, List.flatten_cons,
      byteToHex, List.length_append, List.length_cons, List.length_nil] at *
    omega

theorem hexDigitChar_isHex (n : Nat) (hn : n < 16) :
    isLowerHexDigit (hexDigitChar n) = true := by
  interval_cases n <;> decide

theorem byteToHex_isHex (b : Nat) (hb : b < 256) :
    ∀ c ∈ byteToHex b, isLowerHexDigit c = true := by
  intro c hc
  simp only [byteToHex, List.mem_cons, List.not_mem_nil, or_false] at hc
  rcases hc with h | h <;> subst h <;> exact hexDigitChar_isHex _ (by omega)

theorem bytes_to_hex_isHex (bs : List Nat) (hb : ∀ b ∈ bs, b < 256) :
    ∀ c ∈ (bytes_to_hex bs).data, isLowerHexDigit c = true := by
  intro c hc
  simp only [bytes_to_hex, List.mem_flatten, List.mem_map] at hc
  obtain ⟨l, ⟨b, hbmem, rfl⟩, hcl⟩ := hc
  exact byteToHex_isHex b (hb b hbmem) c hcl

theorem bytesOfHash_length (st : Hash8) : (bytesOfHash st).length = 32 := by
  simp [bytesOfHash, wordBE]

theorem bytesOfHash_lt (st : Hash8) : ∀ b ∈ bytesOfHash st, b < 256 := by
  intro b hb
  simp only [bytesOfHash, wordBE, List.mem_append, List.mem_cons,
    List.not_mem_nil, or_false] at hb
  rcases hb with ((((((h | h) | h) | h) | h) | h) | h) | h <;>
    rcases h with h | h | h | h <;> subst h <;> omega

theorem sha256_length (msg : List Nat) : (sha256 msg).length = 32 :=
  bytesOfHash_length _

theorem sha256_lt (msg : List Nat) : ∀ b ∈ sha256 msg, b < 256 :=
  bytesOfHash_lt _

theorem sha256_hex_length (s : String) : (sha256_hex s).length = 64 := by
  simp [sha256_hex, bytes_to_hex_length, sha256_length]

theorem sha256_hex_isHex (s : String) :
    ∀ c ∈ (sha256_hex s).data, isLowerHexDigit c = true :=
  bytes_to_hex_isHex _ (sha256_lt _)

theorem score_session_eq (s : Session) (c h : Hand) :
    (score_session s c h).1 =
      { s with
        win_count := s.win_count + (if c.vs h = Ordering.lt then 1 else 0)
        tie_count := s.tie_count + (if c.vs h = Ordering.eq then 1 else 0)
        loss_count := s.loss_count + (if c.vs h = Ordering.gt then 1 else 0) } ∧
    (score_session s c h).2 =
      (if c.vs h = Ordering.lt then "You won"
       else if c.vs h = Ordering.eq then "Tie" else "Computer won") := by
  cases hvs : c.vs h <;> simp [score_session, hvs]

theorem score_session_total (s : Session) (c h : Hand) :
    (score_session s c h).1.win_count + (score_session s c h).1.tie_count +
        (score_session s c h).1.loss_count =
      s.win_count + s.tie_count + s.loss_count + 1 ∧
    (score_session s c h).1.user_name = s.user_name ∧
    (score_session s c h).1.last_round = s.last_round ∧
    s.win_count ≤ (score_session s c h).1.win_count ∧
    s.tie_count ≤ (score_session s c h).1.tie_count ∧
    s.loss_count ≤ (score_session s c h).1.loss_count := by
  cases hvs : c.vs h <;> simp [score_session, hvs] <;> omega

theorem user_play_index_eq (reg : Registry) (uid : String) (s : Session)
    (lr : Round) (h : Hand) (f : Round) (hs : reg uid = some s)
    (hr : s.last_round = some lr) :
    user_play_index reg uid h f =
      Except.ok
        (Registry.insert uid
          { (score_session s lr.computer h).1 with last_round := some f } reg,
         some (make_view (score_session s lr.computer h).1 h lr f
           (score_session s lr.computer h).2)) := by
  simp [user_play_index, hs, hr]

theorem user_index_none (reg : Registry) (uid : String) (round : Round)
    (h : reg uid = none) : user_index reg uid round = reg := by
  simp [user_index, h]

theorem user_index_some (reg : Registry) (uid : String) (session : Session)
    (round : Round) (h : reg uid = some session) :
    user_index reg uid round =
      Registry.insert uid { session with last_round := some round } reg := by
  simp [user_index, h]

theorem user_play_index_nouser (reg : Registry) (uid : String) (hand : Hand)
    (fresh : Round) (h : reg uid = none) :
    user_play_index reg uid hand fresh = Except.ok (reg, none) := by
  simp [user_play_index, h]

theorem user_play_index_nopending (reg : Registry) (uid : String)
    (s : Session) (hand : Hand) (fresh : Round) (h : reg uid = some s)
    (h2 : s.last_round = none) :
    user_play_index reg uid hand fresh =
      Except.error PlayError.noPendingRoundPanic := by
  simp [user_play_index, h, h2]

/-! ## The claims -/

/-- C1: the claim says a submitted Hand for a session with no pending round
signals a recoverable no-pending-round error and is never fatal; the code
instead hits the `.expect` on `main.rs` line 206 and panics (aborting the
request and poisoning the `SESSIONS` lock), as this evaluation at a freshly
created session (`last_round = None`) shows.  The counters are indeed left
unchanged — the panic fires before any increment. -/
theorem c1_no_pending_round_panics :
    user_play_index (Registry.insert "u" (Session.new "alice") fun _ => none)
        "u" Hand.Rock { computer := Hand.Rock, random_bytes := "", digest := "" }
      = Except.error PlayError.noPendingRoundPanic := by
  rfl

/-- C2: scoring a pending round computes `Hand.vs` of the committed computer
hand against the user's hand, increments exactly the counter the user-side
outcome selects (win on `lt`, i.e. the computer lost; tie on `eq`; loss on
`gt`) by exactly 1, leaves the other two counters and the user name
unchanged, and installs the fresh round as the new pending round, so the
session stays in `AwaitingAnswer`. -/
theorem c2_scoring (reg : Registry) (uid : String) (s : Session) (r : Round)
    (h : Hand) (f : Round) (hs : reg uid = some s)
    (hr : s.last_round = some r) :
    ∃ v : PlayView,
      user_play_index reg uid h f =
        Except.ok
          (Registry.insert uid
            { s with
              win_count := s.win_count +
                (if r.computer.vs h = Ordering.lt then 1 else 0)
              tie_count := s.tie_count +
                (if r.computer.vs h = Ordering.eq then 1 else 0)
              loss_count := s.loss_count +
                (if r.computer.vs h = Ordering.gt then 1 else 0)
              last_round := some f } reg, some v) ∧
      v.last_result =
        (if r.computer.vs h = Ordering.lt then "You won"
         else if r.computer.vs h = Ordering.eq then "Tie"
         else "Computer won") ∧
      ((if r.computer.vs h = Ordering.lt then 1 else 0) : Nat) +
          (if r.computer.vs h = Ordering.eq then 1 else 0) +
          (if r.computer.vs h = Ordering.gt then 1 else 0) = 1 := by
  obtain ⟨h1, h2⟩ := score_session_eq s r.computer h
  refine ⟨make_view (score_session s r.computer h).1 h r f
    (score_session s r.computer h).2, ?_, ?_, ?_⟩
  · rw [user_play_index_eq reg uid s r h f hs hr, h1]
  · simpa [make_view] using h2
  · cases hvs : r.computer.vs h <;> simp [hvs]

/-- C2 witness: a session holding a pending round whose computer hand is Rock
receives Paper; the computer's Rock loses, `win_count` goes from 0 to 1, and
the fresh round becomes pending. -/
theorem c2_scoring_witness :
    ∃ v : PlayView,
      user_play_index
          (Registry.insert "u"
            { user_name := "alice", win_count := 0, tie_count := 0,
              loss_count := 0,
              last_round := some
                { computer := Hand.Rock, random_bytes := "", digest := "c0" } }
            fun _ => none)
          "u" Hand.Paper
          { computer := Hand.Scissors, random_bytes := "", digest := "c1" } =
        Except.ok
          (Registry.insert "u"
            { user_name := "alice"
              win_count := 0 +
                (if Hand.vs Hand.Rock Hand.Paper = Ordering.lt then 1 else 0)
              tie_count := 0 +
                (if Hand.vs Hand.Rock Hand.Paper = Ordering.eq then 1 else 0)
              loss_count := 0 +
                (if Hand.vs Hand.Rock Hand.Paper = Ordering.gt then 1 else 0)
              last_round := some
                { computer := Hand.Scissors, random_bytes := "", digest := "c1" } }
            (Registry.insert "u"
              { user_name := "alice", win_count := 0, tie_count := 0,
                loss_count := 0,
                last_round := some
                  { computer := Hand.Rock, random_bytes := "", digest := "c0" } }
              fun _ => none), some v) ∧
      v.last_result =
        (if Hand.vs Hand.Rock Hand.Paper = Ordering.lt then "You won"
         else if Hand.vs Hand.Rock Hand.Paper = Ordering.eq then "Tie"
         else "Computer won") ∧
      ((if Hand.vs Hand.Rock Hand.Paper = Ordering.lt then 1 else 0) : Nat) +
          (if Hand.vs Hand.Rock Hand.Paper = Ordering.eq then 1 else 0) +
          (if Hand.vs Hand.Rock Hand.Paper = Ordering.gt then 1 else 0) = 1 :=
  c2_scoring
    (Registry.insert "u"
      { user_name := "alice", win_count := 0, tie_count := 0, loss_count := 0,
        last_round := some
          { computer := Hand.Rock, random_bytes := "", digest := "c0" } }
      fun _ => none)
    "u"
    { user_name := "alice", win_count := 0, tie_count := 0, loss_count := 0,
      last_round := some
        { computer := Hand.Rock, random_bytes := "", digest := "c0" } }
    { computer := Hand.Rock, random_bytes := "", digest := "c0" }
    Hand.Paper
    { computer := Hand.Scissors, random_bytes := "", digest := "c1" }
    rfl rfl

/-- C3: every generated Round stores as its commitment the lowercase hex
SHA-256 digest of the hex-encoded nonce concatenated with the committed
hand's canonical token, so recomputing that digest from the revealed
`random_bytes` and `computer` fields reproduces the stored commitment; and
the commitment is exactly 64 lowercase hex characters. -/
theorem c3_commitment (hand : Hand) (bytes : List Nat) :
    (Round.random hand bytes).digest =
      sha256_hex ((Round.random hand bytes).random_bytes ++
        (Round.random hand bytes).computer.as_ref) ∧
    (Round.random hand bytes).random_bytes = bytes_to_hex bytes ∧
    (Round.random hand bytes).computer = hand ∧
    (Round.random hand bytes).digest.length = 64 ∧
    ∀ c ∈ (Round.random hand bytes).digest.data, isLowerHexDigit c = true :=
  ⟨rfl, rfl, rfl, sha256_hex_length _, sha256_hex_isHex _⟩

/-- C4: `Hand.vs` is the cyclic beats-relation: swapping arguments swaps the
outcome, every hand ties itself, each hand beats exactly one hand and is
beaten by exactly one hand, the beat-pairs are Rock>Scissors,
Scissors>Paper, Paper>Rock, and the relation is not transitive (a 3-cycle,
not a total order). -/
theorem c4_vs_cycle :
    (∀ a b : Hand, a.vs b = (b.vs a).swap) ∧
    (∀ a : Hand, a.vs a = Ordering.eq) ∧
    (∀ a : Hand, ∃ b : Hand, a.vs b = Ordering.gt ∧
      ∀ b2 : Hand, a.vs b2 = Ordering.gt → b2 = b) ∧
    (∀ a : Hand, ∃ b : Hand, b.vs a = Ordering.gt ∧
      ∀ b2 : Hand, b2.vs a = Ordering.gt → b2 = b) ∧
    Hand.vs Hand.Rock Hand.Scissors = Ordering.gt ∧
    Hand.vs Hand.Scissors Hand.Paper = Ordering.gt ∧
    Hand.vs Hand.Paper Hand.Rock = Ordering.gt ∧
    ¬ (∀ a b c : Hand, a.vs b = Ordering.gt → b.vs c = Ordering.gt →
        a.vs c = Ordering.gt) := by
  decide

/-- C5: parsing accepts exactly the three tokens case-insensitively:
`"RoCk"` succeeds, the empty string and `"rockk"` fail, and in general a
string parses to an error exactly when its lowercasing is none of the three
tokens — and a successful parse pins the lowercasing to the returned hand's
own token, so nothing is silently defaulted. -/
theorem c5_parse :
    Hand.from_str "RoCk" = Except.ok Hand.Rock ∧
    Hand.from_str "" = Except.error ParseHandError.mk ∧
    Hand.from_str "rockk" = Except.error ParseHandError.mk ∧
    ∀ s : String,
      (Hand.from_str s = Except.error ParseHandError.mk ↔
        to_lowercase s ∉ (["rock", "paper", "scissors"] : List String)) ∧
      ∀ h : Hand, Hand.from_str s = Except.ok h → to_lowercase s = h.as_ref := by
  refine ⟨rfl, rfl, rfl, fun s => ⟨?_, ?_⟩⟩
  · unfold Hand.from_str
    split_ifs with h1 h2 h3 <;> simp_all
  · intro h hok
    unfold Hand.from_str at hok
    split_ifs at hok with h1 h2 h3 <;> simp_all [Hand.as_ref] <;>
      cases h <;> simp_all

/-- C6: parsing the canonical display token of any hand yields that hand
back (`from_str` is a left inverse of `as_ref` on all three variants). -/
theorem c6_roundtrip : ∀ h : Hand, Hand.from_str h.as_ref = Except.ok h := by
  intro h
  cases h <;> rfl

/-- C7: a fresh session has all three counters at zero and no pending round,
and no operation that yields a session from an existing one — issuing a
challenge (`user_index`) or scoring an answer (`user_play_index`) — ever
decreases any of the three counters (they are `Nat`, hence non-negative). -/
theorem c7_counters_monotone :
    (∀ n : String, (Session.new n).win_count = 0 ∧
      (Session.new n).tie_count = 0 ∧ (Session.new n).loss_count = 0 ∧
      (Session.new n).last_round = none) ∧
    (∀ (reg : Registry) (uid k : String) (r : Round) (s t : Session),
      reg k = some s → user_index reg uid r k = some t →
      s.win_count ≤ t.win_count ∧ s.tie_count ≤ t.tie_count ∧
        s.loss_count ≤ t.loss_count) ∧
    (∀ (reg reg2 : Registry) (uid k : String) (h : Hand) (f : Round)
      (v : Option PlayView) (s t : Session),
      user_play_index reg uid h f = Except.ok (reg2, v) →
      reg k = some s → reg2 k = some t →
      s.win_count ≤ t.win_count ∧ s.tie_count ≤ t.tie_count ∧
        s.loss_count ≤ t.loss_count) := by
  refine ⟨fun n => ⟨rfl, rfl, rfl, rfl⟩, ?_, ?_⟩
  · intro reg uid k r s t hk hk2
    cases hreg : reg uid with
    | none =>
      rw [user_index_none reg uid r hreg, hk] at hk2
      cases hk2
      exact ⟨le_refl _, le_refl _, le_refl _⟩
    | some session =>
      rw [user_index_some reg uid session r hreg] at hk2
      simp only [Registry.insert] at hk2
      by_cases hku : k = uid
      · subst hku
        rw [hk] at hreg
        obtain rfl : s = session := by injection hreg
        rw [if_pos rfl] at hk2
        obtain rfl : _ = t := by injection hk2
        exact ⟨le_refl _, le_refl _, le_refl _⟩
      · rw [if_neg hku, hk] at hk2
        cases hk2
        exact ⟨le_refl _, le_refl _, le_refl _⟩
  · intro reg reg2 uid k h f v s t hok hk hk2
    cases hreg : reg uid with
    | none =>
      rw [user_play_index_nouser reg uid h f hreg] at hok
      simp only [Except.ok.injEq, Prod.mk.injEq] at hok
      obtain ⟨rfl, -⟩ := hok
      rw [hk] at hk2
      cases hk2
      exact ⟨le_refl _, le_refl _, le_refl _⟩
    | some session =>
      cases hlr : session.last_round with
      | none =>
        rw [user_play_index_nopending reg uid session h f hreg hlr] at hok
        simp at hok
      | some lr =>
        rw [user_play_index_eq reg uid session lr h f hreg hlr] at hok
        simp only [Except.ok.injEq, Prod.mk.injEq] at hok
        obtain ⟨hreg2, -⟩ := hok
        subst hreg2
        simp only [Registry.insert] at hk2
        by_cases hku : k = uid
        · subst hku
          rw [hk] at hreg
          obtain rfl : s = session := by injection hreg
          rw [if_pos rfl] at hk2
          obtain rfl : _ = t := by injection hk2
          obtain ⟨-, -, -, hw, htie, hl⟩ := score_session_total s lr.computer h
          exact ⟨hw, htie, hl⟩
        · rw [if_neg hku, hk] at hk2
          cases hk2
          exact ⟨le_refl _, le_refl _, le_refl _⟩

/-- C8: issuing a challenge stores the freshly generated round as the
session's pending round and changes nothing else: the user name and all three
counters are untouched, every other registry key is untouched, and this holds
for any prior session state — in particular when a round was already pending
it is silently overwritten by the new one. -/
theorem c8_issue_frame (reg : Registry) (uid : String) (s : Session)
    (r : Round) (hs : reg uid = some s) :
    user_index reg uid r uid = some { s with last_round := some r } ∧
    ({ s with last_round := some r } : Session).user_name = s.user_name ∧
    ({ s with last_round := some r } : Session).win_count = s.win_count ∧
    ({ s with last_round := some r } : Session).tie_count = s.tie_count ∧
    ({ s with last_round := some r } : Session).loss_count = s.loss_count ∧
    ({ s with last_round := some r } : Session).last_round = some r ∧
    ∀ k, k ≠ uid → user_index reg uid r k = reg k := by
  refine ⟨?_, rfl, rfl, rfl, rfl, rfl, ?_⟩
  · simp [user_index, hs, Registry.insert]
  · intro k hk
    simp [user_index, hs, Registry.insert, hk]

/-- C8 witness: reissuing over a session that already holds a still-unanswered
pending round overwrites it with the new round and keeps the name and the
counters. -/
theorem c8_issue_frame_witness :
    user_index
        (Registry.insert "u"
          { user_name := "alice", win_count := 3, tie_count := 4,
            loss_count := 5,
            last_round := some
              { computer := Hand.Rock, random_bytes := "", digest := "old" } }
          fun _ => none)
        "u" { computer := Hand.Paper, random_bytes := "", digest := "new" }
        "u" =
      some
        { ({ user_name := "alice", win_count := 3, tie_count := 4,
             loss_count := 5,
             last_round := some
               { computer := Hand.Rock, random_bytes := "", digest := "old" } } :
            Session) with
          last_round := some
            { computer := Hand.Paper, random_bytes := "", digest := "new" } } ∧
    ({ ({ user_name := "alice", win_count := 3, tie_count := 4, loss_count := 5,
          last_round := some
            { computer := Hand.Rock, random_bytes := "", digest := "old" } } :
         Session) with
       last_round := some
         { computer := Hand.Paper, random_bytes := "", digest := "new" } } :
        Session).user_name =
      ({ user_name := "alice", win_count := 3, tie_count := 4, loss_count := 5,
         last_round := some
           { computer := Hand.Rock, random_bytes := "", digest := "old" } } :
        Session).user_name ∧
    ({ ({ user_name := "alice", win_count := 3, tie_count := 4, loss_count := 5,
          last_round := some
            { computer := Hand.Rock, random_bytes := "", digest := "old" } } :
         Session) with
       last_round := some
         { computer := Hand.Paper, random_bytes := "", digest := "new" } } :
        Session).win_count =
      ({ user_name := "alice", win_count := 3, tie_count := 4, loss_count := 5,
         last_round := some
           { computer := Hand.Rock, random_bytes := "", digest := "old" } } :
        Session).win_count ∧
    ({ ({ user_name := "alice", win_count := 3, tie_count := 4, loss_count := 5,
          last_round := some
            { computer := Hand.Rock, random_bytes := "", digest := "old" } } :
         Session) with
       last_round := some
         { computer := Hand.Paper, random_bytes := "", digest := "new" } } :
        Session).tie_count =
      ({ user_name := "alice", win_count := 3, tie_count := 4, loss_count := 5,
         last_round := some
           { computer := Hand.Rock, random_bytes := "", digest := "old" } } :
        Session).tie_count ∧
    ({ ({ user_name := "alice", win_count := 3, tie_count := 4, loss_count := 5,
          last_round := some
            { computer := Hand.Rock, random_bytes := "", digest := "old" } } :
         Session) with
       last_round := some
         { computer := Hand.Paper, random_bytes := "", digest := "new" } } :
        Session).loss_count =
      ({ user_name := "alice", win_count := 3, tie_count := 4, loss_count := 5,
         last_round := some
           { computer := Hand.Rock, random_bytes := "", digest := "old" } } :
        Session).loss_count ∧
    ({ ({ user_name := "alice", win_count := 3, tie_count := 4, loss_count := 5,
          last_round := some
            { computer := Hand.Rock, random_bytes := "", digest := "old" } } :
         Session) with
       last_round := some
         { computer := Hand.Paper, random_bytes := "", digest := "new" } } :
        Session).last_round =
      some { computer := Hand.Paper, random_bytes := "", digest := "new" } ∧
    ∀ k, k ≠ "u" →
      user_index
          (Registry.insert "u"
            { user_name := "alice", win_count := 3, tie_count := 4,
              loss_count := 5,
              last_round := some
                { computer := Hand.Rock, random_bytes := "", digest := "old" } }
            fun _ => none)
          "u" { computer := Hand.Paper, random_bytes := "", digest := "new" } k =
        (Registry.insert "u"
          { user_name := "alice", win_count := 3, tie_count := 4,
            loss_count := 5,
            last_round := some
              { computer := Hand.Rock, random_bytes := "", digest := "old" } }
          fun _ => none) k :=
  c8_issue_frame
    (Registry.insert "u"
      { user_name := "alice", win_count := 3, tie_count := 4, loss_count := 5,
        last_round := some
          { computer := Hand.Rock, random_bytes := "", digest := "old" } }
      fun _ => none)
    "u"
    { user_name := "alice", win_count := 3, tie_count := 4, loss_count := 5,
      last_round := some
        { computer := Hand.Rock, random_bytes := "", digest := "old" } }
    { computer := Hand.Paper, random_bytes := "", digest := "new" }
    rfl

/-- C9 counterexample: the claim says N submit-answer calls racing on the
same still-pending round produce exactly one counter increment in total.
The global write lock serializes the handlers, so the racing behaviors are
exactly the sequential compositions — and two serialized `user_play_index`
calls against a session whose counters start at (0,0,0) drive the counter
total to 2, not 1: the first reveal immediately installs the fresh round,
which the second call then scores (it never observes a no-pending-round
condition). -/
theorem c9_at_most_once_fails :
    ∃ (reg1 reg2 : Registry) (v1 v2 : Option PlayView) (s2 : Session),
      user_play_index
          (Registry.insert "u"
            { user_name := "alice", win_count := 0, tie_count := 0,
              loss_count := 0,
              last_round := some
                { computer := Hand.Rock, random_bytes := "", digest := "c0" } }
            fun _ => none)
          "u" Hand.Paper
          { computer := Hand.Rock, random_bytes := "", digest := "c1" } =
        Except.ok (reg1, v1) ∧
      user_play_index reg1 "u" Hand.Paper
          { computer := Hand.Rock, random_bytes := "", digest := "c2" } =
        Except.ok (reg2, v2) ∧
      reg2 "u" = some s2 ∧
      s2.win_count + s2.tie_count + s2.loss_count = 2 ∧
      s2.win_count + s2.tie_count + s2.loss_count ≠ 1 := by
  refine ⟨_, _, _, _, _, rfl, rfl, rfl, rfl, by decide⟩

/-- C9 amended: the lock serializes racing submits, and under that
serialization no two calls score against the same pending round — each
successful call reveals the round that was pending when it ran and
immediately replaces it with its fresh round, which is what the next call
scores — but each of the N calls scores exactly once, so N racing submits
increment the counter total by N (here: two submits, +2), not by one, and
none of them observes a no-pending-round error. -/
theorem c9_serialized_submits (reg : Registry) (uid : String) (s : Session)
    (r0 : Round) (h1 h2 : Hand) (f1 f2 : Round) (hs : reg uid = some s)
    (hr : s.last_round = some r0) :
    ∃ (reg1 reg2 : Registry) (v1 v2 : PlayView),
      user_play_index reg uid h1 f1 = Except.ok (reg1, some v1) ∧
      user_play_index reg1 uid h2 f2 = Except.ok (reg2, some v2) ∧
      v1.last_digest = r0.digest ∧
      v2.last_digest = f1.digest ∧
      ∃ s2 : Session, reg2 uid = some s2 ∧
        s2.win_count + s2.tie_count + s2.loss_count =
          s.win_count + s.tie_count + s.loss_count + 2 := by
  have e1 := user_play_index_eq reg uid s r0 h1 f1 hs hr
  have e2 := user_play_index_eq
    (Registry.insert uid
      { (score_session s r0.computer h1).1 with last_round := some f1 } reg)
    uid { (score_session s r0.computer h1).1 with last_round := some f1 }
    f1 h2 f2 (by simp [Registry.insert]) rfl
  refine ⟨_, _, _, _, e1, e2, rfl, rfl,
    ⟨{ (score_session
          { (score_session s r0.computer h1).1 with last_round := some f1 }
          f1.computer h2).1 with last_round := some f2 },
     by simp [Registry.insert], ?_⟩⟩
  have t1 := (score_session_total s r0.computer h1).1
  have t2 := (score_session_total
    { (score_session s r0.computer h1).1 with last_round := some f1 }
    f1.computer h2).1
  dsimp only at t1 t2 ⊢
  omega

/-- C9 witness for the amended claim: two serialized submits against a
session starting at counters (0,0,0) with a pending round; the first call
reveals that round, the second reveals the first call's fresh round, and the
counter total ends at 2. -/
theorem c9_serialized_submits_witness :
    ∃ (reg1 reg2 : Registry) (v1 v2 : PlayView),
      user_play_index
          (Registry.insert "u"
            { user_name := "alice", win_count := 0, tie_count := 0,
              loss_count := 0,
              last_round := some
                { computer := Hand.Rock, random_bytes := "", digest := "c0" } }
            fun _ => none)
          "u" Hand.Paper
          { computer := Hand.Rock, random_bytes := "", digest := "c1" } =
        Except.ok (reg1, some v1) ∧
      user_play_index reg1 "u" Hand.Scissors
          { computer := Hand.Rock, random_bytes := "", digest := "c2" } =
        Except.ok (reg2, some v2) ∧
      v1.last_digest =
        ({ computer := Hand.Rock, random_bytes := "", digest := "c0" } :
          Round).digest ∧
      v2.last_digest =
        ({ computer := Hand.Rock, random_bytes := "", digest := "c1" } :
          Round).digest ∧
      ∃ s2 : Session, reg2 "u" = some s2 ∧
        s2.win_count + s2.tie_count + s2.loss_count =
          ({ user_name := "alice", win_count := 0, tie_count := 0,
             loss_count := 0,
             last_round := some
               { computer := Hand.Rock, random_bytes := "", digest := "c0" } } :
            Session).win_count +
            ({ user_name := "alice", win_count := 0, tie_count := 0,
               loss_count := 0,
               last_round := some
                 { computer := Hand.Rock, random_bytes := "", digest := "c0" } } :
              Session).tie_count +
            ({ user_name := "alice", win_count := 0, tie_count := 0,
               loss_count := 0,
               last_round := some
                 { computer := Hand.Rock, random_bytes := "", digest := "c0" } } :
              Session).loss_count + 2 :=
  c9_serialized_submits
    (Registry.insert "u"
      { user_name := "alice", win_count := 0, tie_count := 0, loss_count := 0,
        last_round := some
          { computer := Hand.Rock, random_bytes := "", digest := "c0" } }
      fun _ => none)
    "u"
    { user_name := "alice", win_count := 0, tie_count := 0, loss_count := 0,
      last_round := some
        { computer := Hand.Rock, random_bytes := "", digest := "c0" } }
    { computer := Hand.Rock, random_bytes := "", digest := "c0" }
    Hand.Paper Hand.Scissors
    { computer := Hand.Rock, random_bytes := "", digest := "c1" }
    { computer := Hand.Rock, random_bytes := "", digest := "c2" }
    rfl rfl

/-- C10: login hex-encodes the 16 freshly drawn random bytes into a user id
of 32 lowercase hex characters, inserts a brand-new zeroed session under
that id, leaves every other registry entry in place (so an earlier session
of the same client, living under a different random id, remains in the
registry), and derives the id from the random draw alone — never from
existing cookies or the registry. -/
theorem c10_login (reg : Registry) (n : String) (bytes : List Nat)
    (hlen : bytes.length = 16) (hb : ∀ b ∈ bytes, b < 256) :
    (login reg n bytes).1.length = 32 ∧
    (∀ c ∈ (login reg n bytes).1.data, isLowerHexDigit c = true) ∧
    (login reg n bytes).1 = bytes_to_hex bytes ∧
    (login reg n bytes).2 (login reg n bytes).1 = some (Session.new n) ∧
    (Session.new n).win_count = 0 ∧ (Session.new n).tie_count = 0 ∧
    (Session.new n).loss_count = 0 ∧ (Session.new n).last_round = none ∧
    ∀ k, k ≠ (login reg n bytes).1 → (login reg n bytes).2 k = reg k := by
  refine ⟨?_, ?_, rfl, ?_, rfl, rfl, rfl, rfl, ?_⟩
  · show (bytes_to_hex bytes).length = 32
    rw [bytes_to_hex_length, hlen]
  · exact fun c hc => bytes_to_hex_isHex bytes hb c hc
  · simp [login, Registry.insert]
  · intro k hk
    simp only [login] at hk
    simp [login, Registry.insert, hk]

/-- C10 witness: logging in with 16 concrete random bytes (all `0xab`) yields
the 32-character id `"abab…ab"`, a zeroed session under it, and no change to
any other key. -/
theorem c10_login_witness :
    (login (fun _ => none) "alice" (List.replicate 16 171)).1.length = 32 ∧
    (∀ c ∈ (login (fun _ => none) "alice" (List.replicate 16 171)).1.data,
      isLowerHexDigit c = true) ∧
    (login (fun _ => none) "alice" (List.replicate 16 171)).1 =
      bytes_to_hex (List.replicate 16 171) ∧
    (login (fun _ => none) "alice" (List.replicate 16 171)).2
        (login (fun _ => none) "alice" (List.replicate 16 171)).1 =
      some (Session.new "alice") ∧
    (Session.new "alice").win_count = 0 ∧
    (Session.new "alice").tie_count = 0 ∧
    (Session.new "alice").loss_count = 0 ∧
    (Session.new "alice").last_round = none ∧
    ∀ k, k ≠ (login (fun _ => none) "alice" (List.replicate 16 171)).1 →
      (login (fun _ => none) "alice" (List.replicate 16 171)).2 k =
        (fun _ => none : Registry) k :=
  c10_login (fun _ => none) "alice" (List.replicate 16 171) rfl (by decide)

end RPS

